import Mathlib

/-!
Verification of the `apitest` package (backend/library/go-api/apitest/apitest.go).

The package is a declarative test harness: `TestSuite.RunHandlerTest` runs one
`HandlerTest` case (hooks, one handler invocation through `MakeHandlerRequest`,
then a sequence of checks reported through the ambient `testing.T`).

Shallow embedding choices:
* `testing.T` is modelled as a trace: every reporting call (`assert.*`,
  `t.Error`, `t.Errorf`) and every hook/harness invocation appends one `Event`.
  None of these aborts the test function, which matches Go's `t.Error`
  semantics (report and continue).
* JSON decoding is an external collaborator (spec scope section), so the two
  `json.Unmarshal` calls are modelled by a `Codec` parameter holding the two
  decoders. On Go decode failure the target keeps its zero value, which the
  embedding reproduces explicitly.
* The handler is a pure function from (method, route, content) to a recorded
  result; `ioutil.ReadAll` of the recorded body is modelled as returning the
  bytes that were read plus an optional read error.
* Status codes are Go `int`s, modelled as `Int`.
-/

/-- A JSON value, the model of Go's `interface{}` produced by `json.Unmarshal`
into `map[string]interface{}`. -/
inductive JSON where
  | null : JSON
  | bool : Bool → JSON
  | num : Int → JSON
  | str : String → JSON
  | arr : List JSON → JSON
  | obj : List (String × JSON) → JSON

mutual

/-- Boolean equality on `JSON` values. -/
def JSON.beq : JSON → JSON → Bool
  | .null, .null => true
  | .bool a, .bool b => a == b
  | .num a, .num b => a == b
  | .str a, .str b => a == b
  | .arr xs, .arr ys => JSON.beqList xs ys
  | .obj xs, .obj ys => JSON.beqFields xs ys
  | _, _ => false

/-- Boolean equality on lists of `JSON` values. -/
def JSON.beqList : List JSON → List JSON → Bool
  | [], [] => true
  | x :: xs, y :: ys => JSON.beq x y && JSON.beqList xs ys
  | _, _ => false

/-- Boolean equality on `JSON` object fields. -/
def JSON.beqFields : List (String × JSON) → List (String × JSON) → Bool
  | [], [] => true
  | (k, v) :: xs, (l, w) :: ys => k == l && JSON.beq v w && JSON.beqFields xs ys
  | _, _ => false

end

instance : BEq JSON := ⟨JSON.beq⟩

/-- Modelled from the spec: the error shape of the external `go-api` package,
`api.Error`, a JSON object with an integer `code` and a string `message`
(the `go-api` package itself is not under src/). -/
structure ApiError where
  Code : Int
  Message : String
deriving DecidableEq, Repr, Inhabited

/-- Model of `v, exists := m[k]` on the decoded `map[string]interface{}`:
`none` models Go's missing-key case (nil value). -/
def lookupJSON : List (String × JSON) → String → Option JSON
  | [], _ => none
  | (k, v) :: rest, key => if k == key then some v else lookupJSON rest key

/-- Does `l` start with `p`? (helper for substring containment). -/
def startsWithL : List Char → List Char → Bool
  | _, [] => true
  | [], _ :: _ => false
  | a :: as, b :: bs => a == b && startsWithL as bs

/-- Does `l` contain `sub` as a contiguous sublist? -/
def containsSubL : List Char → List Char → Bool
  | [], sub => sub.isEmpty
  | a :: as, sub => startsWithL (a :: as) sub || containsSubL as sub

/-- Model of `assert.Contains(t, s, sub)`: substring containment on strings. -/
def strContains (s sub : String) : Bool :=
  containsSubL s.toList sub.toList

/-- Model of `AssertFunc`: takes the decoded field value (`none` models Go's nil
interface for a missing key) and reports pass (`true`) or fail (`false`)
through `testing.T`. -/
def AssertFunc := Option JSON → Bool

/-- Model of `AssertIsEqual(expected)`: passes iff the value equals the expected one.
Go's nil (missing) value is never equal to a supplied `JSON` expectation. -/
def AssertIsEqual (expected : JSON) : AssertFunc :=
  fun v => v == some expected

/-- Model of `AssertNotEmptyFunc`: passes iff the value is non-empty
(`assert.NotEmpty`): nil, `""`, `0`, `false`, `[]`, `{}` and `null` are empty. -/
def AssertNotEmptyFunc : AssertFunc :=
  fun v =>
    match v with
    | none => false
    | some JSON.null => false
    | some (JSON.bool b) => b
    | some (JSON.num n) => n != 0
    | some (JSON.str s) => s != ""
    | some (JSON.arr xs) => !xs.isEmpty
    | some (JSON.obj fs) => !fs.isEmpty

/-- The result of reading the recorded response body
(`ioutil.ReadAll(resp.Body)`): the bytes actually read, and an optional
read error. -/
structure ReadResult where
  bytes : String
  readErr : Option String
deriving Repr

/-- What the response recorder holds after the handler ran: the status code
(`w.Code`), the headers, and the body stream to be read. -/
structure RecorderResult where
  Code : Int
  Headers : List (String × String)
  BodyRead : ReadResult

/-- A handler under test: a pure function from (method, route, content) to
the recorded result. Purity is the model of `http.HandlerFunc` restricted to
deterministic, side-effect-free handlers. -/
def Handler := String → String → String → RecorderResult

/-- The `*http.Response` data as far as the harness exposes it. -/
structure HttpResponse where
  StatusCode : Int
  Headers : List (String × String)
deriving DecidableEq, Repr

/-- The error value returned by `MakeHandlerRequest`. -/
inductive HarnessError where
  | readError : String → HarnessError
  | unacceptedStatus : String → Int → String → HarnessError
deriving DecidableEq, Repr

/-- The triple `(*http.Response, []byte, error)` returned by
`MakeHandlerRequest`. -/
structure MHRResult where
  resp : HttpResponse
  body : String
  err : Option HarnessError
deriving DecidableEq, Repr

/-- Model of `HandlerReqParams`. -/
structure HandlerReqParams where
  Route : String
  Method : String
  HandlerFunc : Handler

/-- The `statusMap` built by `MakeHandlerRequest`:
`for _, status := range acceptedStatusCodes { statusMap[status] = true }`. -/
def buildStatusMap (acceptedStatusCodes : List Int) : List (Int × Bool) :=
  acceptedStatusCodes.foldl (fun m status => (status, true) :: m) []

/-- Model of `v, hasKey := statusMap[code]`. -/
def mapLookup : List (Int × Bool) → Int → Option Bool
  | [], _ => none
  | (k, v) :: rest, key => if k == key then some v else mapLookup rest key

/-- Model of `MakeHandlerRequest(p, content, acceptedStatusCodes)`: invoke the handler
on a synthetic request, read the body, then (only when the accepted set is
non-empty) check the status via the `statusMap`. -/
def MakeHandlerRequest (p : HandlerReqParams) (content : String)
    (acceptedStatusCodes : List Int) : MHRResult :=
  let w := p.HandlerFunc p.Method p.Route content
  let resp : HttpResponse := { StatusCode := w.Code, Headers := w.Headers }
  match w.BodyRead.readErr with
  | some e => { resp := resp, body := w.BodyRead.bytes, err := some (.readError e) }
  | none =>
    let body := w.BodyRead.bytes
    if acceptedStatusCodes.length > 0 then
      let statusMap := buildStatusMap acceptedStatusCodes
      match mapLookup statusMap w.Code with
      | none =>
        { resp := resp, body := body,
          err := some (.unacceptedStatus p.Route w.Code body) }
      | some v =>
        if !v then
          { resp := resp, body := body,
            err := some (.unacceptedStatus p.Route w.Code body) }
        else
          { resp := resp, body := body, err := none }
    else
      { resp := resp, body := body, err := none }

/-- The decoders of the external serialization collaborator:
`json.Unmarshal` into `api.Error` and into `map[string]interface{}`. -/
structure Codec where
  decodeError : String → Except String ApiError
  decodeMap : String → Except String (List (String × JSON))

/-- One reporting or invocation step of a case run, in program order.
Checks carry their pass/fail Boolean (`true` = pass). -/
inductive Event where
  | suiteBeforeHook : Event
  | caseBeforeHook : Event
  | harnessInvoked : Event
  | noErrorCheck : Bool → Event
  | statusEqualCheck : Bool → Event
  | bodyEqualCheck : Bool → Event
  | errDecodeFailure : Event
  | errCodeCheck : Bool → Event
  | errMsgNotEmptyCheck : Bool → Event
  | errMsgContainsCheck : Bool → Event
  | fieldsDecodeFailure : Event
  | missingKeyError : String → Event
  | fieldAssert : String → Bool → Event
  | caseAfterHook : Event
  | suiteAfterHook : Event
deriving DecidableEq, Repr

/-- Model of `TestSuite`. The hook fields record whether the corresponding function
pointer is non-nil (the hooks' own effects are outside the model). -/
structure TestSuite where
  Route : String
  Method : String
  HandlerFunc : Handler
  AfterTestFunc : Bool
  BeforeTestFunc : Bool

/-- Model of `HandlerTest`. `AssertContentFields` is `none` for a nil map; the list
order stands in for Go's (unspecified) map iteration order. -/
structure HandlerTest where
  Name : String
  Content : String
  WantStatusCode : Int
  WantContent : String
  WantErr : Bool
  WantErrMessage : String
  AssertContentFields : Option (List (String × AssertFunc))
  BeforeRunFunc : Bool
  AfterRunFunc : Bool
  SkipBeforeTestFunc : Bool
  SkipAfterTestFunc : Bool

/-- The body of the field-assertion loop for one entry `(k, assertFunc)`:
`v, exists := rJSON[k]; if !exists { t.Errorf(...) }; assertFunc(t, v)`.
Note the assert function is called even when the key is missing. -/
def runFieldEntry (rJSON : List (String × JSON)) (kv : String × AssertFunc) :
    List Event :=
  let v := lookupJSON rJSON kv.1
  (match v with
   | none => [Event.missingKeyError kv.1]
   | some _ => [])
  ++ [Event.fieldAssert kv.1 (kv.2 v)]

/-- Model of `TestSuite.RunHandlerTest`, statement by statement, as the trace of
events it reports. -/
def RunHandlerTest (c : Codec) (ts : TestSuite) (tt : HandlerTest) :
    List Event :=
  -- Run BeforeRunFuncs
  (if ts.BeforeTestFunc && !tt.SkipBeforeTestFunc then [Event.suiteBeforeHook] else [])
  ++ (if tt.BeforeRunFunc then [Event.caseBeforeHook] else [])
  ++
  -- Create the HTTP request and response; call MakeHandlerRequest
  (let hreq : HandlerReqParams := ⟨ts.Route, ts.Method, ts.HandlerFunc⟩
   let res := MakeHandlerRequest hreq tt.Content [tt.WantStatusCode]
   [Event.harnessInvoked]
   -- assert.NoError(t, err)
   ++ [Event.noErrorCheck res.err.isNone]
   -- assert.Equal(t, tt.WantStatusCode, resp.StatusCode)
   ++ [Event.statusEqualCheck (tt.WantStatusCode == res.resp.StatusCode)]
   -- if tt.WantContent != "" { assert.Equal(t, tt.WantContent, string(body)) }
   ++ (if tt.WantContent != "" then
        [Event.bodyEqualCheck (tt.WantContent == res.body)]
      else [])
   -- if tt.WantErrMessage != "" || tt.WantErr { ... }
   ++ (if tt.WantErrMessage != "" || tt.WantErr then
        -- var errH api.Error; err = json.Unmarshal(body, &errH)
        let dec := c.decodeError res.body
        -- on failure errH keeps its zero value
        let errH : ApiError := match dec with
          | .ok v => v
          | .error _ => ⟨0, ""⟩
        -- if err != nil { t.Error(err) }
        (match dec with
         | .error _ => [Event.errDecodeFailure]
         | .ok _ => [])
        -- assert.Equal(t, tt.WantStatusCode, int(errH.Code))
        ++ [Event.errCodeCheck (tt.WantStatusCode == errH.Code)]
        -- if tt.WantErr { assert.NotEmpty(t, errH.Message) }
        ++ (if tt.WantErr then
             [Event.errMsgNotEmptyCheck (errH.Message != "")]
           else [])
        -- if tt.WantErrMessage != "" { assert.Contains(t, errH.Message, tt.WantErrMessage) }
        ++ (if tt.WantErrMessage != "" then
             [Event.errMsgContainsCheck (strContains errH.Message tt.WantErrMessage)]
           else [])
      else [])
   -- if tt.AssertContentFields != nil { ... }
   ++ (match tt.AssertContentFields with
       | none => []
       | some fields =>
         -- var rJSON = make(map[string]interface{}); err = json.Unmarshal(body, &rJSON)
         let decM := c.decodeMap res.body
         -- on failure rJSON stays the empty map
         let rJSON : List (String × JSON) := match decM with
           | .ok m => m
           | .error _ => []
         -- if err != nil { t.Error(err) }
         (match decM with
          | .error _ => [Event.fieldsDecodeFailure]
          | .ok _ => [])
         -- for k, assertFunc := range tt.AssertContentFields { ... }
         ++ fields.flatMap (runFieldEntry rJSON)))
  -- Run AfterRunFuncs
  ++ (if tt.AfterRunFunc then [Event.caseAfterHook] else [])
  ++ (if ts.AfterTestFunc && !tt.SkipAfterTestFunc then [Event.suiteAfterHook] else [])

/-! ### Derived views of the run, used to state and prove the claims. -/

/-- The harness result computed inside `RunHandlerTest`: the accepted-status
set it passes is the singleton `[tt.WantStatusCode]`. -/
def caseHarnessResult (ts : TestSuite) (tt : HandlerTest) : MHRResult :=
  MakeHandlerRequest ⟨ts.Route, ts.Method, ts.HandlerFunc⟩ tt.Content
    [tt.WantStatusCode]

/-- The `api.Error` value after `json.Unmarshal(body, &errH)`: the decoded
value on success, the zero value on failure. -/
def decodedErrH (c : Codec) (body : String) : ApiError :=
  match c.decodeError body with
  | .ok v => v
  | .error _ => ⟨0, ""⟩

/-- The `map[string]interface{}` after `json.Unmarshal(body, &rJSON)`: the
decoded mapping on success, the (initial) empty map on failure. -/
def decodedFields (c : Codec) (body : String) : List (String × JSON) :=
  match c.decodeMap body with
  | .ok m => m
  | .error _ => []

/-- The structured-error validation branch of `RunHandlerTest`. -/
def errShapeChecks (c : Codec) (tt : HandlerTest) (body : String) : List Event :=
  if tt.WantErrMessage != "" || tt.WantErr then
    let errH : ApiError := decodedErrH c body
    (match c.decodeError body with
     | .error _ => [Event.errDecodeFailure]
     | .ok _ => [])
    ++ [Event.errCodeCheck (tt.WantStatusCode == errH.Code)]
    ++ (if tt.WantErr then [Event.errMsgNotEmptyCheck (errH.Message != "")] else [])
    ++ (if tt.WantErrMessage != "" then
         [Event.errMsgContainsCheck (strContains errH.Message tt.WantErrMessage)]
       else [])
  else []

/-- The field-assertion validation branch of `RunHandlerTest`. -/
def fieldChecks (c : Codec) (tt : HandlerTest) (body : String) : List Event :=
  match tt.AssertContentFields with
  | none => []
  | some fields =>
    (match c.decodeMap body with
     | .error _ => [Event.fieldsDecodeFailure]
     | .ok _ => [])
    ++ fields.flatMap (runFieldEntry (decodedFields c body))

/-- All the Response Validator checks of one case run, in order. -/
def validatorChecks (c : Codec) (ts : TestSuite) (tt : HandlerTest) : List Event :=
  let res := caseHarnessResult ts tt
  [Event.noErrorCheck res.err.isNone]
  ++ [Event.statusEqualCheck (tt.WantStatusCode == res.resp.StatusCode)]
  ++ (if tt.WantContent != "" then
       [Event.bodyEqualCheck (tt.WantContent == res.body)]
     else [])
  ++ errShapeChecks c tt res.body
  ++ fieldChecks c tt res.body

/-- The recorded output of the handler invocation performed by
`MakeHandlerRequest p content _`. -/
def recorderOf (p : HandlerReqParams) (content : String) : RecorderResult :=
  p.HandlerFunc p.Method p.Route content

/-- Two runs of the same case with the same codec, suite and handler
(handlers and hooks are pure functions in this model). -/
def runHandlerTestTwice (c : Codec) (ts : TestSuite) (tt : HandlerTest) :
    List Event × List Event :=
  (RunHandlerTest c ts tt, RunHandlerTest c ts tt)

/-! ### Concrete fixtures used by witnesses and counterexamples. -/

/-- A handler fixture: always responds 200 with body "B". -/
def okHandler : Handler := fun _ _ _ =>
  { Code := 200, Headers := [], BodyRead := { bytes := "B", readErr := none } }

/-- A handler fixture: always responds 404 with body "oops". -/
def notFoundHandler : Handler := fun _ _ _ =>
  { Code := 404, Headers := [], BodyRead := { bytes := "oops", readErr := none } }

/-- Request-params fixture over `okHandler`. -/
def reqParams200 : HandlerReqParams := ⟨"/r", "POST", okHandler⟩

/-- A codec fixture: the error decoder always fails, the map decoder always
yields the single-field object {"name": "x"}. -/
def mapOnlyCodec : Codec :=
  { decodeError := fun _ => .error "invalid character",
    decodeMap := fun _ => .ok [("name", JSON.str "x")] }

/-- A codec fixture: both decoders always fail. -/
def failCodec : Codec :=
  { decodeError := fun _ => .error "invalid character",
    decodeMap := fun _ => .error "invalid character" }

/-- A codec fixture: every body decodes as the error
{code: 404, message: "not found: widget"}. -/
def err404Codec : Codec :=
  { decodeError := fun _ => .ok ⟨404, "not found: widget"⟩,
    decodeMap := fun _ => .ok [] }

/-- Suite fixture over `okHandler`, no hooks configured. -/
def suite200 : TestSuite := ⟨"/r", "POST", okHandler, false, false⟩

/-- Suite fixture over `notFoundHandler`, no hooks configured. -/
def suite404 : TestSuite := ⟨"/r", "POST", notFoundHandler, false, false⟩

/-- A case with no expectations configured at all. -/
def blankCase : HandlerTest :=
  { Name := "blank", Content := "", WantStatusCode := 200, WantContent := "",
    WantErr := false, WantErrMessage := "", AssertContentFields := none,
    BeforeRunFunc := false, AfterRunFunc := false,
    SkipBeforeTestFunc := false, SkipAfterTestFunc := false }

/-- Case fixture for field assertions: expects 200 and asserts on field
"id", which `mapOnlyCodec` never produces. -/
def fieldsCase : HandlerTest :=
  { blankCase with
    Name := "fields",
    AssertContentFields := some [("id", AssertNotEmptyFunc)] }

/-- Case fixture for the structured-error branch: expects 404, an error
is expected. -/
def errCase : HandlerTest :=
  { blankCase with Name := "err", WantStatusCode := 404, WantErr := true }

/-- Case fixture for the structured-error branch with a substring
expectation as well. -/
def errSubstrCase : HandlerTest :=
  { errCase with Name := "errSubstr", WantErrMessage := "not found" }

/-- Case fixture expecting the exact body "B". -/
def bodyCase : HandlerTest :=
  { blankCase with Name := "body", WantContent := "B" }

/-- Case fixture expecting status 201 (while `okHandler` responds 200),
with a body expectation so later checks are observable. -/
def mismatchCase : HandlerTest :=
  { blankCase with
    Name := "mismatch",
    WantStatusCode := 201,
    WantContent := "B" }

/-! ### Theorems. -/

/-- The trace of `RunHandlerTest` is exactly the linear sequence: optional suite
before-hook, optional case before-hook, harness invocation, validator
checks, optional case after-hook, optional suite after-hook. -/
theorem runHandlerTest_decomp (c : Codec) (ts : TestSuite) (tt : HandlerTest) :
    RunHandlerTest c ts tt =
      (if ts.BeforeTestFunc && !tt.SkipBeforeTestFunc then [Event.suiteBeforeHook] else [])
      ++ (if tt.BeforeRunFunc then [Event.caseBeforeHook] else [])
      ++ [Event.harnessInvoked]
      ++ validatorChecks c ts tt
      ++ (if tt.AfterRunFunc then [Event.caseAfterHook] else [])
      ++ (if ts.AfterTestFunc && !tt.SkipAfterTestFunc then [Event.suiteAfterHook] else []) := by
  simp only [RunHandlerTest, validatorChecks, errShapeChecks, fieldChecks,
    decodedErrH, decodedFields, caseHarnessResult, List.append_assoc]

/-- Looking a status up in the `statusMap` built from the accepted list gives
`some true` exactly on members, `none` otherwise (every inserted value is
`true`). -/
theorem mapLookup_buildStatusMap (codes : List Int) (s : Int) :
    mapLookup (buildStatusMap codes) s = if s ∈ codes then some true else none := by
  suffices h : ∀ acc : List (Int × Bool),
      mapLookup (codes.foldl (fun m status => (status, true) :: m) acc) s =
        if s ∈ codes then some true else mapLookup acc s by
    simpa [buildStatusMap, mapLookup] using h []
  induction codes with
  | nil => intro acc; simp
  | cons hd rest ih =>
    intro acc
    rw [List.foldl_cons, ih ((hd, true) :: acc)]
    by_cases hmem : s ∈ rest
    · simp [hmem]
    · by_cases heq : hd = s
      · simp [hmem, heq, mapLookup]
      · have hne : ¬ s = hd := fun h2 => heq h2.symm
        simp [mapLookup, hmem, heq, hne]

/-- With a successful body read and a non-empty accepted set,
`MakeHandlerRequest` errors exactly on statuses outside the set, and the
error carries the route, the actual status and the body text. -/
theorem mhr_err_iff_unaccepted (p : HandlerReqParams) (content : String)
    (codes : List Int) (hc : codes ≠ [])
    (hr : (recorderOf p content).BodyRead.readErr = none) :
    ((MakeHandlerRequest p content codes).err ≠ none ↔
        (recorderOf p content).Code ∉ codes) ∧
      ((recorderOf p content).Code ∉ codes →
        (MakeHandlerRequest p content codes).err =
          some (HarnessError.unacceptedStatus p.Route (recorderOf p content).Code
            (recorderOf p content).BodyRead.bytes)) := by
  have hlen : codes.length > 0 := List.length_pos.mpr hc
  have hw : p.HandlerFunc p.Method p.Route content = recorderOf p content := rfl
  simp only [MakeHandlerRequest, hw, hr, mapLookup_buildStatusMap, if_pos hlen]
  by_cases hmem : (recorderOf p content).Code ∈ codes
  · simp [hmem]
  · simp [hmem]

/-- C5: when the accepted-status set passed to `MakeHandlerRequest` is empty
and the body read succeeds, no status-code error is ever returned, regardless
of the actual status code produced by the handler. -/
theorem c5_empty_accepted_no_error (p : HandlerReqParams) (content : String)
    (hr : (recorderOf p content).BodyRead.readErr = none) :
    (MakeHandlerRequest p content []).err = none := by
  have hw : p.HandlerFunc p.Method p.Route content = recorderOf p content := rfl
  simp [MakeHandlerRequest, hw, hr]

/-- The function `MakeHandlerRequest` hands back the recorded response and the bytes that
were read on every control path. -/
theorem mhr_returns_resp_body (p : HandlerReqParams) (content : String)
    (codes : List Int) :
    (MakeHandlerRequest p content codes).resp =
        { StatusCode := (recorderOf p content).Code
          Headers := (recorderOf p content).Headers } ∧
      (MakeHandlerRequest p content codes).body =
        (recorderOf p content).BodyRead.bytes := by
  have hw : p.HandlerFunc p.Method p.Route content = recorderOf p content := rfl
  simp only [MakeHandlerRequest, hw]
  refine ⟨?_, ?_⟩ <;> (repeat' split) <;> rfl

/-- C4: with a successful body read and a non-empty accepted-status set, the
harness invocation returns an error if and only if the actual status is not a
member of the accepted set, and that error carries the route, the actual
status, and the raw body text. -/
theorem c4_unaccepted_status_error (p : HandlerReqParams) (content : String)
    (codes : List Int) (hc : codes ≠ [])
    (hr : (recorderOf p content).BodyRead.readErr = none) :
    ((MakeHandlerRequest p content codes).err ≠ none ↔
        (recorderOf p content).Code ∉ codes) ∧
      ((recorderOf p content).Code ∉ codes →
        (MakeHandlerRequest p content codes).err =
          some (HarnessError.unacceptedStatus p.Route (recorderOf p content).Code
            (recorderOf p content).BodyRead.bytes)) :=
  mhr_err_iff_unaccepted p content codes hc hr

/-- Witness for C4 at the fixture: handler answers 200, accepted set [201]. -/
theorem c4_witness :
    (([201] : List Int) ≠ []) ∧
      (recorderOf reqParams200 "").BodyRead.readErr = none ∧
      (((MakeHandlerRequest reqParams200 "" [201]).err ≠ none ↔
          (recorderOf reqParams200 "").Code ∉ ([201] : List Int)) ∧
        ((recorderOf reqParams200 "").Code ∉ ([201] : List Int) →
          (MakeHandlerRequest reqParams200 "" [201]).err =
            some (HarnessError.unacceptedStatus reqParams200.Route
              (recorderOf reqParams200 "").Code
              (recorderOf reqParams200 "").BodyRead.bytes))) :=
  ⟨by decide, rfl, c4_unaccepted_status_error reqParams200 "" [201] (by decide) rfl⟩

/-- Witness for C5 at the fixture: handler answers 200, accepted set empty. -/
theorem c5_witness :
    (recorderOf reqParams200 "").BodyRead.readErr = none ∧
      (MakeHandlerRequest reqParams200 "" []).err = none :=
  ⟨rfl, c5_empty_accepted_no_error reqParams200 "" rfl⟩

/-- C3: running one case executes exactly the linear sequence: suite-level
before-hook (if configured and not skipped), case-level before-hook (if
configured), the harness invocation, the validator checks, case-level
after-hook (if configured), suite-level after-hook (if configured and not
skipped); an absent hook contributes nothing and no step branches back. -/
theorem c3_case_run_sequence (c : Codec) (ts : TestSuite) (tt : HandlerTest) :
    RunHandlerTest c ts tt =
      (if ts.BeforeTestFunc && !tt.SkipBeforeTestFunc then [Event.suiteBeforeHook] else [])
      ++ (if tt.BeforeRunFunc then [Event.caseBeforeHook] else [])
      ++ [Event.harnessInvoked]
      ++ validatorChecks c ts tt
      ++ (if tt.AfterRunFunc then [Event.caseAfterHook] else [])
      ++ (if ts.AfterTestFunc && !tt.SkipAfterTestFunc then [Event.suiteAfterHook] else []) :=
  runHandlerTest_decomp c ts tt

/-- C10: running the same case twice against the same (pure) handler, hooks
and codec yields identical traces, hence identical pass/fail outcomes for
every check. -/
theorem c10_deterministic_runs (c : Codec) (ts : TestSuite) (tt : HandlerTest) :
    (runHandlerTestTwice c ts tt).1 = (runHandlerTestTwice c ts tt).2 := rfl

/-- Membership in a conditional singleton segment of the trace. -/
theorem mem_if_singleton (e x : Event) (b : Bool) :
    (e ∈ (if b then [x] else ([] : List Event))) ↔ (b = true ∧ e = x) := by
  cases b <;> simp

/-- Membership in a conditional segment of the trace. -/
theorem mem_if_nil (e : Event) (l : List Event) (b : Bool) :
    (e ∈ (if b then l else ([] : List Event))) ↔ (b = true ∧ e ∈ l) := by
  cases b <;> simp

/-- The events one field entry contributes: a missing-key error when the key
is absent, and always the assert-function invocation on the looked-up value. -/
theorem mem_runFieldEntry (rJSON : List (String × JSON))
    (kv : String × AssertFunc) (e : Event) :
    e ∈ runFieldEntry rJSON kv ↔
      ((lookupJSON rJSON kv.1 = none ∧ e = Event.missingKeyError kv.1) ∨
        e = Event.fieldAssert kv.1 (kv.2 (lookupJSON rJSON kv.1))) := by
  unfold runFieldEntry
  rcases h : lookupJSON rJSON kv.1 with _ | v <;> simp [h]

/-- A raw-body equality check appears in the trace exactly when the expected
body is non-empty, and then it compares the expected body with the body the
harness returned. -/
theorem mem_bodyEqualCheck_iff (c : Codec) (ts : TestSuite) (tt : HandlerTest)
    (b : Bool) :
    Event.bodyEqualCheck b ∈ RunHandlerTest c ts tt ↔
      (tt.WantContent ≠ "" ∧ b = (tt.WantContent == (caseHarnessResult ts tt).body)) := by
  rw [runHandlerTest_decomp]
  rcases hdec : c.decodeError (caseHarnessResult ts tt).body with e1 | v1 <;>
    rcases hmap : c.decodeMap (caseHarnessResult ts tt).body with e2 | m2 <;>
    rcases hf : tt.AssertContentFields with _ | fields <;>
    simp [validatorChecks, errShapeChecks, fieldChecks, decodedErrH, decodedFields,
      hdec, hmap, hf, mem_if_singleton, mem_if_nil, mem_runFieldEntry,
      List.mem_flatMap, List.mem_append, and_comm]

/-- Every validator-check event is in the case run's trace. -/
theorem mem_run_of_mem_validator (c : Codec) (ts : TestSuite) (tt : HandlerTest)
    (e : Event) (he : e ∈ validatorChecks c ts tt) : e ∈ RunHandlerTest c ts tt := by
  rw [runHandlerTest_decomp]
  simp only [List.mem_append]
  tauto

/-- Every structured-error-branch event is a validator-check event. -/
theorem mem_validator_of_mem_errShape (c : Codec) (ts : TestSuite)
    (tt : HandlerTest) (e : Event)
    (he : e ∈ errShapeChecks c tt (caseHarnessResult ts tt).body) :
    e ∈ validatorChecks c ts tt := by
  simp only [validatorChecks, List.mem_append]
  tauto

/-- Every field-assertion-branch event is a validator-check event. -/
theorem mem_validator_of_mem_fieldChecks (c : Codec) (ts : TestSuite)
    (tt : HandlerTest) (e : Event)
    (he : e ∈ fieldChecks c tt (caseHarnessResult ts tt).body) :
    e ∈ validatorChecks c ts tt := by
  simp only [validatorChecks, List.mem_append]
  tauto

/-- C7: when the structured-error branch is triggered and the body decodes
successfully, the decoded code is checked for equality with the expected
status; if an error is expected the decoded message is checked for
non-emptiness; if an expected substring is configured the decoded message is
checked for containing it. -/
theorem c7_error_shape_checks (c : Codec) (ts : TestSuite) (tt : HandlerTest)
    (errH : ApiError)
    (hcond : tt.WantErrMessage ≠ "" ∨ tt.WantErr = true)
    (hdec : c.decodeError (caseHarnessResult ts tt).body = .ok errH) :
    Event.errCodeCheck (tt.WantStatusCode == errH.Code) ∈ RunHandlerTest c ts tt ∧
      (tt.WantErr = true →
        Event.errMsgNotEmptyCheck (errH.Message != "") ∈ RunHandlerTest c ts tt) ∧
      (tt.WantErrMessage ≠ "" →
        Event.errMsgContainsCheck (strContains errH.Message tt.WantErrMessage) ∈
          RunHandlerTest c ts tt) := by
  have hcond' : (tt.WantErrMessage != "" || tt.WantErr) = true := by
    rcases hcond with h | h
    · simp [bne_iff_ne, h]
    · simp [h]
  refine ⟨?_, ?_, ?_⟩
  · exact mem_run_of_mem_validator c ts tt _ (mem_validator_of_mem_errShape c ts tt _
      (by simp [errShapeChecks, hcond', hdec, decodedErrH]))
  · intro h
    exact mem_run_of_mem_validator c ts tt _ (mem_validator_of_mem_errShape c ts tt _
      (by simp [errShapeChecks, hcond', hdec, decodedErrH, h]))
  · intro h
    exact mem_run_of_mem_validator c ts tt _ (mem_validator_of_mem_errShape c ts tt _
      (by simp [errShapeChecks, hcond', hdec, decodedErrH, bne_iff_ne, h]))

/-- Witness for C7 at the fixture: every check of the branch appears with the
decoded error {404, "not found: widget"}. -/
theorem c7_witness :
    (errSubstrCase.WantErrMessage ≠ "" ∨ errSubstrCase.WantErr = true) ∧
      err404Codec.decodeError (caseHarnessResult suite404 errSubstrCase).body =
        .ok ⟨404, "not found: widget"⟩ ∧
      (Event.errCodeCheck ((404 : Int) == (404 : Int)) ∈
          RunHandlerTest err404Codec suite404 errSubstrCase ∧
        (errSubstrCase.WantErr = true →
          Event.errMsgNotEmptyCheck (("not found: widget" : String) != "") ∈
            RunHandlerTest err404Codec suite404 errSubstrCase) ∧
        (errSubstrCase.WantErrMessage ≠ "" →
          Event.errMsgContainsCheck (strContains "not found: widget" "not found") ∈
            RunHandlerTest err404Codec suite404 errSubstrCase)) :=
  ⟨Or.inr rfl, rfl,
    c7_error_shape_checks err404Codec suite404 errSubstrCase ⟨404, "not found: widget"⟩
      (Or.inr rfl) rfl⟩

/-- C2 counterexample: with `failCodec` the error-shape decode fails on the
fixture case (an error is expected, expected status 404), the failure is
reported — and yet the remaining checks of the branch still execute, against
the zero-valued error: the code-equality check runs (and fails, 404 ≠ 0) and
the message-non-emptiness check runs (and fails, "" is empty). The claim says
those checks are not executed. -/
theorem c2_counterexample :
    Event.errDecodeFailure ∈ RunHandlerTest failCodec suite404 errCase ∧
      Event.errCodeCheck false ∈ RunHandlerTest failCodec suite404 errCase ∧
      Event.errMsgNotEmptyCheck false ∈ RunHandlerTest failCodec suite404 errCase := by
  decide

/-- C2 (amended): when the structured-error branch is triggered and the raw
body does not decode, the decode failure is reported, and the remaining
checks of the branch are still executed — against the zero-valued error
(code 0, empty message); unrelated checks also still run. -/
theorem c2_amended_decode_failure_branch (c : Codec) (ts : TestSuite)
    (tt : HandlerTest) (msg : String)
    (hcond : tt.WantErrMessage ≠ "" ∨ tt.WantErr = true)
    (hdec : c.decodeError (caseHarnessResult ts tt).body = .error msg) :
    Event.errDecodeFailure ∈ RunHandlerTest c ts tt ∧
      Event.errCodeCheck (tt.WantStatusCode == (0 : Int)) ∈ RunHandlerTest c ts tt ∧
      (tt.WantErr = true →
        Event.errMsgNotEmptyCheck false ∈ RunHandlerTest c ts tt) ∧
      (tt.WantErrMessage ≠ "" →
        Event.errMsgContainsCheck (strContains "" tt.WantErrMessage) ∈
          RunHandlerTest c ts tt) := by
  have hcond' : (tt.WantErrMessage != "" || tt.WantErr) = true := by
    rcases hcond with h | h
    · simp [bne_iff_ne, h]
    · simp [h]
  refine ⟨?_, ?_, ?_, ?_⟩
  · exact mem_run_of_mem_validator c ts tt _ (mem_validator_of_mem_errShape c ts tt _
      (by simp [errShapeChecks, hcond', hdec, decodedErrH]))
  · exact mem_run_of_mem_validator c ts tt _ (mem_validator_of_mem_errShape c ts tt _
      (by simp [errShapeChecks, hcond', hdec, decodedErrH]))
  · intro h
    exact mem_run_of_mem_validator c ts tt _ (mem_validator_of_mem_errShape c ts tt _
      (by simp [errShapeChecks, hcond', hdec, decodedErrH, h]))
  · intro h
    exact mem_run_of_mem_validator c ts tt _ (mem_validator_of_mem_errShape c ts tt _
      (by simp [errShapeChecks, hcond', hdec, decodedErrH, bne_iff_ne, h]))

/-- Witness for the amended C2 at the fixture. -/
theorem c2_witness :
    (errCase.WantErrMessage ≠ "" ∨ errCase.WantErr = true) ∧
      failCodec.decodeError (caseHarnessResult suite404 errCase).body =
        .error "invalid character" ∧
      (Event.errDecodeFailure ∈ RunHandlerTest failCodec suite404 errCase ∧
        Event.errCodeCheck (errCase.WantStatusCode == (0 : Int)) ∈
          RunHandlerTest failCodec suite404 errCase ∧
        (errCase.WantErr = true →
          Event.errMsgNotEmptyCheck false ∈ RunHandlerTest failCodec suite404 errCase) ∧
        (errCase.WantErrMessage ≠ "" →
          Event.errMsgContainsCheck (strContains "" errCase.WantErrMessage) ∈
            RunHandlerTest failCodec suite404 errCase)) :=
  ⟨Or.inr rfl, rfl,
    c2_amended_decode_failure_branch failCodec suite404 errCase "invalid character"
      (Or.inr rfl) rfl⟩

/-- C9: `MakeHandlerRequest` always returns the captured response and the
body that was read, in every outcome — on success, on a body-read error, and
on an unaccepted-status error — so callers can always inspect the actual
output. -/
theorem c9_harness_always_returns (p : HandlerReqParams) (content : String)
    (codes : List Int) :
    (MakeHandlerRequest p content codes).resp =
        { StatusCode := (recorderOf p content).Code
          Headers := (recorderOf p content).Headers } ∧
      (MakeHandlerRequest p content codes).body =
        (recorderOf p content).BodyRead.bytes :=
  mhr_returns_resp_body p content codes

/-- C8: whenever the handler's actual status differs from the expected status
(and the body read succeeds), the harness invocation inside the case run
fails — the accepted set it receives is exactly the singleton of the expected
status — so the no-error check fails, and independently the status-equality
check fails; both are in the trace, and later validator checks (here the
raw-body check, whenever configured) still run. -/
theorem c8_both_failures_reported (c : Codec) (ts : TestSuite) (tt : HandlerTest)
    (hr : (ts.HandlerFunc ts.Method ts.Route tt.Content).BodyRead.readErr = none)
    (hne : (ts.HandlerFunc ts.Method ts.Route tt.Content).Code ≠ tt.WantStatusCode) :
    Event.noErrorCheck false ∈ RunHandlerTest c ts tt ∧
      Event.statusEqualCheck false ∈ RunHandlerTest c ts tt ∧
      (tt.WantContent ≠ "" →
        Event.bodyEqualCheck (tt.WantContent == (caseHarnessResult ts tt).body) ∈
          RunHandlerTest c ts tt) := by
  have hrec : recorderOf ⟨ts.Route, ts.Method, ts.HandlerFunc⟩ tt.Content =
      ts.HandlerFunc ts.Method ts.Route tt.Content := rfl
  have hcode : (recorderOf ⟨ts.Route, ts.Method, ts.HandlerFunc⟩ tt.Content).Code ∉
      [tt.WantStatusCode] := by
    rw [hrec]
    simpa using hne
  have herr : (caseHarnessResult ts tt).err ≠ none :=
    (mhr_err_iff_unaccepted ⟨ts.Route, ts.Method, ts.HandlerFunc⟩ tt.Content
      [tt.WantStatusCode] (by simp) (by rw [hrec]; exact hr)).1.mpr hcode
  have hisNone : (caseHarnessResult ts tt).err.isNone = false := by
    rcases hE : (caseHarnessResult ts tt).err with _ | e
    · exact absurd hE herr
    · simp [hE]
  have hstat : (tt.WantStatusCode == (caseHarnessResult ts tt).resp.StatusCode) = false := by
    have h1 := (mhr_returns_resp_body ⟨ts.Route, ts.Method, ts.HandlerFunc⟩ tt.Content
      [tt.WantStatusCode]).1
    have h0 : caseHarnessResult ts tt =
        MakeHandlerRequest ⟨ts.Route, ts.Method, ts.HandlerFunc⟩ tt.Content
          [tt.WantStatusCode] := rfl
    have h2 : (caseHarnessResult ts tt).resp.StatusCode =
        (ts.HandlerFunc ts.Method ts.Route tt.Content).Code := by
      rw [h0, h1, hrec]
    rw [h2]
    exact beq_eq_false_iff_ne.mpr fun hEq => hne hEq.symm
  refine ⟨?_, ?_, ?_⟩
  · rw [show Event.noErrorCheck false =
        Event.noErrorCheck (caseHarnessResult ts tt).err.isNone from by rw [hisNone]]
    exact mem_run_of_mem_validator c ts tt _ (by simp [validatorChecks])
  · rw [show Event.statusEqualCheck false =
        Event.statusEqualCheck
          (tt.WantStatusCode == (caseHarnessResult ts tt).resp.StatusCode) from by
      rw [hstat]]
    exact mem_run_of_mem_validator c ts tt _ (by simp [validatorChecks])
  · intro h
    exact (mem_bodyEqualCheck_iff c ts tt _).mpr ⟨h, rfl⟩

/-- Witness for C8 at the fixture: handler answers 200, case expects 201. -/
theorem c8_witness :
    (okHandler "POST" "/r" "").BodyRead.readErr = none ∧
      (okHandler "POST" "/r" "").Code ≠ mismatchCase.WantStatusCode ∧
      (Event.noErrorCheck false ∈ RunHandlerTest mapOnlyCodec suite200 mismatchCase ∧
        Event.statusEqualCheck false ∈ RunHandlerTest mapOnlyCodec suite200 mismatchCase ∧
        (mismatchCase.WantContent ≠ "" →
          Event.bodyEqualCheck
              (mismatchCase.WantContent == (caseHarnessResult suite200 mismatchCase).body) ∈
            RunHandlerTest mapOnlyCodec suite200 mismatchCase)) :=
  ⟨rfl, by decide,
    c8_both_failures_reported mapOnlyCodec suite200 mismatchCase rfl (by decide)⟩

/-- C6: an empty expected raw body (`WantContent = ""`) means the raw-body
equality check is never performed — skip, not expect-empty — and a non-empty
expected raw body is compared for exact equality with the raw body text. -/
theorem c6_empty_wantContent_skips_body_check (c : Codec) (ts : TestSuite)
    (tt : HandlerTest) :
    (tt.WantContent = "" → ∀ b, Event.bodyEqualCheck b ∉ RunHandlerTest c ts tt) ∧
      (tt.WantContent ≠ "" →
        Event.bodyEqualCheck (tt.WantContent == (caseHarnessResult ts tt).body) ∈
          RunHandlerTest c ts tt) := by
  constructor
  · intro h b hmem
    exact ((mem_bodyEqualCheck_iff c ts tt b).mp hmem).1 h
  · intro h
    exact (mem_bodyEqualCheck_iff c ts tt _).mpr ⟨h, rfl⟩

/-- Witness for C6 at the fixtures: the check appears (with the exact
comparison) for the case expecting body "B", and no raw-body check at all
appears for the case with an empty expected body. -/
theorem c6_witness :
    ("B" : String) ≠ "" ∧
      Event.bodyEqualCheck ("B" == (caseHarnessResult suite200 bodyCase).body) ∈
        RunHandlerTest mapOnlyCodec suite200 bodyCase ∧
      Event.bodyEqualCheck true ∉ RunHandlerTest mapOnlyCodec suite200 blankCase :=
  ⟨by decide,
    (c6_empty_wantContent_skips_body_check mapOnlyCodec suite200 bodyCase).2 (by decide),
    (c6_empty_wantContent_skips_body_check mapOnlyCodec suite200 blankCase).1 rfl true⟩

/-- A missing-key error for `k` appears in the trace exactly when field
assertions are configured, some assertion is configured for `k`, and `k` is
absent from the decoded mapping. -/
theorem mem_missingKeyError_iff (c : Codec) (ts : TestSuite) (tt : HandlerTest)
    (k : String) :
    Event.missingKeyError k ∈ RunHandlerTest c ts tt ↔
      ∃ fields, tt.AssertContentFields = some fields ∧
        (∃ f : AssertFunc, (k, f) ∈ fields) ∧
        lookupJSON (decodedFields c (caseHarnessResult ts tt).body) k = none := by
  rw [runHandlerTest_decomp]
  rcases hdec : c.decodeError (caseHarnessResult ts tt).body with e1 | v1 <;>
    rcases hmap : c.decodeMap (caseHarnessResult ts tt).body with e2 | m2 <;>
    rcases hf : tt.AssertContentFields with _ | fields <;>
    simp [validatorChecks, errShapeChecks, fieldChecks, decodedErrH, decodedFields,
      hdec, hmap, hf, mem_if_singleton, mem_if_nil, mem_runFieldEntry,
      List.mem_flatMap, List.mem_append]

/-- C1 counterexample: field "id" is configured with an assertion but absent
from the decoded mapping; the missing-key error is reported — and yet the
assertion function for "id" IS invoked (with the nil value, failing), against
the claim that it is not invoked for an absent field. -/
theorem c1_counterexample :
    (lookupJSON (decodedFields mapOnlyCodec
        (caseHarnessResult suite200 fieldsCase).body) "id").isNone = true ∧
      Event.missingKeyError "id" ∈ RunHandlerTest mapOnlyCodec suite200 fieldsCase ∧
      Event.fieldAssert "id" false ∈ RunHandlerTest mapOnlyCodec suite200 fieldsCase := by
  decide

/-- C1 (amended): for every configured field assertion, when the field is
present its value is passed to the assertion function; when it is absent, a
missing-key error is reported — so a missing field never silently passes —
but the assertion function is nevertheless still invoked, with the nil
value. -/
theorem c1_amended_field_dispatch (c : Codec) (ts : TestSuite) (tt : HandlerTest)
    (fields : List (String × AssertFunc)) (k : String) (f : AssertFunc)
    (hf : tt.AssertContentFields = some fields)
    (hk : (k, f) ∈ fields) :
    (lookupJSON (decodedFields c (caseHarnessResult ts tt).body) k = none →
        Event.missingKeyError k ∈ RunHandlerTest c ts tt ∧
          Event.fieldAssert k (f none) ∈ RunHandlerTest c ts tt) ∧
      (∀ v, lookupJSON (decodedFields c (caseHarnessResult ts tt).body) k = some v →
        Event.fieldAssert k (f (some v)) ∈ RunHandlerTest c ts tt ∧
          Event.missingKeyError k ∉ RunHandlerTest c ts tt) := by
  have hmemFA : ∀ e,
      e ∈ runFieldEntry (decodedFields c (caseHarnessResult ts tt).body) (k, f) →
      e ∈ RunHandlerTest c ts tt := by
    intro e he
    apply mem_run_of_mem_validator
    apply mem_validator_of_mem_fieldChecks
    simp only [fieldChecks, hf]
    exact List.mem_append.mpr (Or.inr (List.mem_flatMap.mpr ⟨(k, f), hk, he⟩))
  constructor
  · intro hnone
    refine ⟨hmemFA _ (by simp [mem_runFieldEntry, hnone]), ?_⟩
    have heq : Event.fieldAssert k (f none) =
        Event.fieldAssert k
          (f (lookupJSON (decodedFields c (caseHarnessResult ts tt).body) k)) := by
      rw [hnone]
    rw [heq]
    exact hmemFA _ (by simp [mem_runFieldEntry])
  · intro v hv
    constructor
    · have heq : Event.fieldAssert k (f (some v)) =
          Event.fieldAssert k
            (f (lookupJSON (decodedFields c (caseHarnessResult ts tt).body) k)) := by
        rw [hv]
      rw [heq]
      exact hmemFA _ (by simp [mem_runFieldEntry])
    · intro hmem
      rcases (mem_missingKeyError_iff c ts tt k).mp hmem with ⟨fields2, _, _, hlnone⟩
      rw [hv] at hlnone
      cases hlnone

/-- Witness for the amended C1 at the fixture: field "id" is configured,
absent from the decoded mapping {"name": "x"}; the missing-key error is
reported and the assertion function still runs on the nil value. -/
theorem c1_witness :
    fieldsCase.AssertContentFields = some [("id", AssertNotEmptyFunc)] ∧
      ("id", AssertNotEmptyFunc) ∈ [("id", AssertNotEmptyFunc)] ∧
      lookupJSON (decodedFields mapOnlyCodec
        (caseHarnessResult suite200 fieldsCase).body) "id" = none ∧
      (Event.missingKeyError "id" ∈ RunHandlerTest mapOnlyCodec suite200 fieldsCase ∧
        Event.fieldAssert "id" (AssertNotEmptyFunc none) ∈
          RunHandlerTest mapOnlyCodec suite200 fieldsCase) :=
  ⟨rfl, List.Mem.head _, rfl,
    (c1_amended_field_dispatch mapOnlyCodec suite200 fieldsCase
      [("id", AssertNotEmptyFunc)] "id" AssertNotEmptyFunc rfl (List.Mem.head _)).1 rfl⟩
